import Mathlib

/-!
Shallow embedding of `objax/nn/layers.py` (neural-network layers of the objax
library) and verification of its specification.

Tensors are modelled as a shape together with a total map from multi-indices
to exact rationals; floating-point arithmetic is idealised as rational
arithmetic.  External collaborators of the module (the array engine's `rsqrt`,
the cross-device `pmean` collective, the Bernoulli mask generator and the
weight initializers) are passed in as function parameters, matching the spec's
description of them as external capabilities.
-/

namespace Objax

/-- Model of a jax array: a shape and a total assignment of a rational to
every multi-index (indices outside the shape are irrelevant padding). -/
structure Tensor where
  shape : List Nat
  data : List Nat → ℚ

namespace Tensor

/-- Elementwise unary map, as applied by jax broadcasting of scalar ops. -/
def map (f : ℚ → ℚ) (t : Tensor) : Tensor :=
  ⟨t.shape, fun idx => f (t.data idx)⟩

/-- Clamp an index to a shape: on axes of extent 1 the only valid index is 0,
which is how numpy broadcasting reads a size-1 axis. -/
def clampIdx (sh idx : List Nat) : List Nat :=
  List.zipWith (fun d i => if d = 1 then 0 else i) sh idx

/-- Read a tensor at an index under broadcasting (size-1 axes repeat). -/
def bget (t : Tensor) (idx : List Nat) : ℚ :=
  t.data (clampIdx t.shape idx)

/-- Shape of the result of broadcasting two same-rank shapes. -/
def broadcastShape (s t : List Nat) : List Nat :=
  List.zipWith max s t

/-- Elementwise binary operation with numpy same-rank broadcasting. -/
def zipWith (f : ℚ → ℚ → ℚ) (a b : Tensor) : Tensor :=
  ⟨broadcastShape a.shape b.shape, fun idx => f (a.bget idx) (b.bget idx)⟩

/-- Elementwise addition `a + b`. -/
def add (a b : Tensor) : Tensor := zipWith (· + ·) a b

/-- Elementwise subtraction `a - b`. -/
def sub (a b : Tensor) : Tensor := zipWith (· - ·) a b

/-- Elementwise multiplication `a * b`. -/
def mul (a b : Tensor) : Tensor := zipWith (· * ·) a b

/-- Scalar times tensor, `c * t`. -/
def smul (c : ℚ) (t : Tensor) : Tensor := map (fun a => c * a) t

/-- Tensor times scalar, `t * c`. -/
def mulScalar (t : Tensor) (c : ℚ) : Tensor := map (fun a => a * c) t

/-- Tensor plus scalar, `t + c`. -/
def addScalar (t : Tensor) (c : ℚ) : Tensor := map (fun a => a + c) t

/-- Elementwise square, `t ** 2`. -/
def sq (t : Tensor) : Tensor := map (fun a => a ^ 2) t

/-- Model of `jn.zeros(sh)`. -/
def zeros (sh : List Nat) : Tensor := ⟨sh, fun _ => 0⟩

/-- Model of `jn.ones(sh)`. -/
def ones (sh : List Nat) : Tensor := ⟨sh, fun _ => 1⟩

/-- Model of `jn.zeros(sh) + c`. -/
def fill (sh : List Nat) (c : ℚ) : Tensor := ⟨sh, fun _ => 0 + c⟩

/-- Shape resulting from reducing over the axes listed in `redux` with
`keepdims=True`: every reduced axis gets extent 1.  `pos` is the index of the
first axis of the list. -/
def reducedShape : List Nat → List Nat → Nat → List Nat
  | [], _, _ => []
  | d :: ds, redux, pos =>
      (if pos ∈ redux then 1 else d) :: reducedShape ds redux pos.succ

/-- All full indices that reduce to the output index `idx`: axes in `redux`
range over their whole extent, the remaining axes are read from `idx`. -/
def fiber : List Nat → List Nat → List Nat → Nat → List (List Nat)
  | [], _, _, _ => [[]]
  | d :: ds, redux, idx, pos =>
      let rest := fiber ds redux idx.tail pos.succ
      if pos ∈ redux then
        (List.range d).flatMap (fun j => rest.map (fun is => j :: is))
      else
        rest.map (fun is => idx.headI :: is)

/-- Model of `t.mean(redux, keepdims=True)`: each output entry is the mean of
the entries of `t` along the reduced axes. -/
def meanKeepdims (t : Tensor) (redux : List Nat) : Tensor :=
  ⟨reducedShape t.shape redux 0,
   fun idx =>
     let fib := fiber t.shape redux idx 0
     ((fib.map t.data).sum) / (fib.length : ℚ)⟩

/-- Model of `t[1:]`: drop the first slot along axis 0. -/
def sliceFrom1 (t : Tensor) : Tensor :=
  ⟨(t.shape.headI - 1) :: t.shape.tail,
   fun idx => t.data ((idx.headI + 1) :: idx.tail)⟩

/-- Model of `x[None]`: add a leading axis of extent 1. -/
def unsqueeze0 (x : Tensor) : Tensor :=
  ⟨1 :: x.shape, fun idx => x.data idx.tail⟩

/-- Model of `jn.concatenate([a, b])`: concatenation along axis 0. -/
def concat0 (a b : Tensor) : Tensor :=
  ⟨(a.shape.headI + b.shape.headI) :: a.shape.tail,
   fun idx =>
     if idx.headI < a.shape.headI then a.data idx
     else b.data ((idx.headI - a.shape.headI) :: idx.tail)⟩

/-- Model of `t.mean(0)`: mean along axis 0, removing that axis. -/
def mean0 (t : Tensor) : Tensor :=
  ⟨t.shape.tail,
   fun idx =>
     (((List.range t.shape.headI).map (fun i => t.data (i :: idx))).sum)
       / (t.shape.headI : ℚ)⟩

/-- Validity of an index for a shape: same rank, every coordinate in range. -/
def validIdxB : List Nat → List Nat → Bool
  | [], [] => true
  | d :: ds, i :: is => decide (i < d) && validIdxB ds is
  | _, _ => false

theorem clampIdx_of_valid :
    ∀ sh idx : List Nat, validIdxB sh idx = true → clampIdx sh idx = idx := by
  intro sh
  induction sh with
  | nil =>
      intro idx h
      cases idx with
      | nil => rfl
      | cons i is => simp [validIdxB] at h
  | cons d ds ih =>
      intro idx h
      cases idx with
      | nil => simp [validIdxB] at h
      | cons i is =>
          simp only [validIdxB, Bool.and_eq_true, decide_eq_true_eq] at h
          have hi : i < d := h.1
          have htl := ih is h.2
          simp only [clampIdx, List.zipWith] at htl ⊢
          refine congrArg₂ (· :: ·) ?_ htl
          by_cases hd : d = 1
          · subst hd
            have hi0 : i = 0 := by omega
            simp [hi0]
          · simp [hd]

theorem broadcastShape_self (sh : List Nat) : broadcastShape sh sh = sh := by
  induction sh with
  | nil => rfl
  | cons d ds ih =>
      unfold broadcastShape at ih ⊢
      rw [List.zipWith_cons_cons, max_self, ih]

theorem bget_of_valid (t : Tensor) (idx : List Nat)
    (h : validIdxB t.shape idx = true) : t.bget idx = t.data idx := by
  unfold bget
  rw [clampIdx_of_valid t.shape idx h]

theorem bget_valid (t : Tensor) (sh idx : List Nat) (ht : t.shape = sh)
    (h : validIdxB sh idx = true) : t.bget idx = t.data idx := by
  unfold bget
  rw [ht, clampIdx_of_valid sh idx h]

theorem map_shape (f : ℚ → ℚ) (t : Tensor) : (map f t).shape = t.shape := rfl

theorem map_data (f : ℚ → ℚ) (t : Tensor) (idx : List Nat) :
    (map f t).data idx = f (t.data idx) := rfl

theorem bget_map (f : ℚ → ℚ) (t : Tensor) (idx : List Nat) :
    (map f t).bget idx = f (t.bget idx) := rfl

theorem zipWith_data (f : ℚ → ℚ → ℚ) (a b : Tensor) (idx : List Nat) :
    (zipWith f a b).data idx = f (a.bget idx) (b.bget idx) := rfl

theorem zipWith_shape (f : ℚ → ℚ → ℚ) (a b : Tensor) :
    (zipWith f a b).shape = broadcastShape a.shape b.shape := rfl

end Tensor

/-- State of a `BatchNorm` module as created by `BatchNorm.__init__`: the
hyperparameters together with the two tracked states (`running_mean`,
`running_var`) and the two trainable parameters (`beta`, `gamma`). -/
structure BatchNormState where
  momentum : ℚ
  eps : ℚ
  redux : List Nat
  running_mean : Tensor
  running_var : Tensor
  beta : Tensor
  gamma : Tensor

namespace BatchNorm

/-- Model of `BatchNorm.__init__(dims, redux, momentum, eps)`. -/
def init (dims : List Nat) (redux : List Nat) (momentum eps : ℚ) :
    BatchNormState :=
  { momentum := momentum
    eps := eps
    redux := redux
    running_mean := Tensor.zeros dims
    running_var := Tensor.ones dims
    beta := Tensor.zeros dims
    gamma := Tensor.ones dims }

/-- Model of `BatchNorm.__call__(x, training)`.  `rsqrt` is the array
engine's reciprocal square root, an external collaborator.  Returns the
output tensor together with the updated module state. -/
def call (rsqrt : ℚ → ℚ) (s : BatchNormState) (x : Tensor) (training : Bool) :
    Tensor × BatchNormState :=
  if training then
    let m := Tensor.meanKeepdims x s.redux
    let v := Tensor.sub (Tensor.meanKeepdims (Tensor.sq x) s.redux) (Tensor.sq m)
    let rm := Tensor.add s.running_mean
      (Tensor.smul (1 - s.momentum) (Tensor.sub m s.running_mean))
    let rv := Tensor.add s.running_var
      (Tensor.smul (1 - s.momentum) (Tensor.sub v s.running_var))
    let y := Tensor.add
      (Tensor.mul (Tensor.mul s.gamma (Tensor.sub x m))
        (Tensor.map rsqrt (Tensor.addScalar v s.eps)))
      s.beta
    (y, { s with running_mean := rm, running_var := rv })
  else
    let m := s.running_mean
    let v := s.running_var
    let y := Tensor.add
      (Tensor.mul (Tensor.mul s.gamma (Tensor.sub x m))
        (Tensor.map rsqrt (Tensor.addScalar v s.eps)))
      s.beta
    (y, s)

end BatchNorm

namespace BatchNorm0D

/-- Model of `BatchNorm0D.__init__(nin, momentum, eps)`. -/
def init (nin : Nat) (momentum eps : ℚ) : BatchNormState :=
  BatchNorm.init [1, nin] [0] momentum eps

end BatchNorm0D

namespace BatchNorm1D

/-- Model of `BatchNorm1D.__init__(nin, momentum, eps)`. -/
def init (nin : Nat) (momentum eps : ℚ) : BatchNormState :=
  BatchNorm.init [1, nin, 1] [0, 2] momentum eps

end BatchNorm1D

namespace BatchNorm2D

/-- Model of `BatchNorm2D.__init__(nin, momentum, eps)`. -/
def init (nin : Nat) (momentum eps : ℚ) : BatchNormState :=
  BatchNorm.init [1, nin, 1, 1] [0, 2, 3] momentum eps

end BatchNorm2D

namespace SyncedBatchNorm

/-- Model of `SyncedBatchNorm.__call__(x, training, batch_norm_update)`.
`pmean` is the cross-device mean-reduction collective, an external
collaborator; the state layout and `__init__` are inherited from
`BatchNorm`. -/
def call (rsqrt : ℚ → ℚ) (pmean : Tensor → Tensor) (s : BatchNormState)
    (x : Tensor) (training : Bool) (batch_norm_update : Bool) :
    Tensor × BatchNormState :=
  if training then
    let m := pmean (Tensor.meanKeepdims x s.redux)
    let v := pmean
      (Tensor.sub (Tensor.meanKeepdims (Tensor.sq x) s.redux) (Tensor.sq m))
    let s2 :=
      if batch_norm_update then
        { s with
          running_mean := Tensor.add s.running_mean
            (Tensor.smul (1 - s.momentum) (Tensor.sub m s.running_mean))
          running_var := Tensor.add s.running_var
            (Tensor.smul (1 - s.momentum) (Tensor.sub v s.running_var)) }
      else s
    let y := Tensor.add
      (Tensor.mul (Tensor.mul s.gamma (Tensor.sub x m))
        (Tensor.map rsqrt (Tensor.addScalar v s.eps)))
      s.beta
    (y, s2)
  else
    let m := s.running_mean
    let v := s.running_var
    let y := Tensor.add
      (Tensor.mul (Tensor.mul s.gamma (Tensor.sub x m))
        (Tensor.map rsqrt (Tensor.addScalar v s.eps)))
      s.beta
    (y, s)

/-- Model of `SyncedBatchNorm0D.__init__(nin, momentum, eps)` (inherited
`BatchNorm.__init__` with dims `(1, nin)` and redux `(0,)`). -/
def init0D (nin : Nat) (momentum eps : ℚ) : BatchNormState :=
  BatchNorm.init [1, nin] [0] momentum eps

/-- Model of `SyncedBatchNorm1D.__init__(nin, momentum, eps)`. -/
def init1D (nin : Nat) (momentum eps : ℚ) : BatchNormState :=
  BatchNorm.init [1, nin, 1] [0, 2] momentum eps

/-- Model of `SyncedBatchNorm2D.__init__(nin, momentum, eps)`. -/
def init2D (nin : Nat) (momentum eps : ℚ) : BatchNormState :=
  BatchNorm.init [1, nin, 1, 1] [0, 2, 3] momentum eps

end SyncedBatchNorm

/-- Padding policy enumeration (`objax.constants.ConvPadding`). -/
inductive ConvPadding where
  | SAME
  | VALID
deriving DecidableEq

/-- Argument that is either a single number or a pair, as accepted by
`Conv2D` for kernel size, strides and dilations. -/
inductive IntOrPair where
  | single (n : Nat)
  | pair (a b : Nat)

/-- Model of `util.to_tuple(v, 2)`: duplicate a single number, keep a pair. -/
def to_tuple2 : IntOrPair → Nat × Nat
  | IntOrPair.single n => (n, n)
  | IntOrPair.pair a b => (a, b)

/-- State of a constructed `Conv2D` module. -/
structure Conv2DState where
  b : Option Tensor
  w : Tensor
  padding : ConvPadding
  strides : Nat × Nat
  dilations : Nat × Nat
  groups : Nat

namespace Conv2D

/-- Model of `Conv2D.__init__`.  The two `assert` statements guarding
divisibility of `nin` and `nout` by `groups` are modelled by returning
`none` (construction failure) when either fails.  `w_init` is the external
weight-initializer collaborator mapping an HWIO shape to a tensor. -/
def init (nin nout : Nat) (k : IntOrPair) (strides dilations : IntOrPair)
    (groups : Nat) (padding : ConvPadding) (use_bias : Bool)
    (w_init : List Nat → Tensor) : Option Conv2DState :=
  if nin % groups = 0 then
    if nout % groups = 0 then
      some
        { b := if use_bias then some (Tensor.zeros [nout, 1, 1]) else none
          w := w_init [(to_tuple2 k).1, (to_tuple2 k).2, nin / groups, nout]
          padding := padding
          strides := to_tuple2 strides
          dilations := to_tuple2 dilations
          groups := groups }
    else none
  else none

end Conv2D

/-- State of a `Dropout` module: the keep probability and the random
generator, modelled as a draw counter that advances once per `keygen()`
call. -/
structure DropoutState where
  keygen : Nat
  keep : ℚ

/-- Python truthiness of `dropout_keep or self.keep`: `None` and `0.0` are
falsy and fall back to the default. -/
def pyOrKeep (dropout_keep : Option ℚ) (default : ℚ) : ℚ :=
  match dropout_keep with
  | none => default
  | some k => if k = 0 then default else k

namespace Dropout

/-- Model of `Dropout.__call__(x, training, dropout_keep)`.  `bernoulli`
is the external random collaborator: given the key produced by the current
generator state, a keep probability and a shape, it yields the boolean
keep mask.  Returns the output and the updated module state (the generator
advances exactly when a mask is drawn). -/
def call (bernoulli : Nat → ℚ → List Nat → (List Nat → Bool))
    (s : DropoutState) (x : Tensor) (training : Bool)
    (dropout_keep : Option ℚ) : Tensor × DropoutState :=
  let keep := pyOrKeep dropout_keep s.keep
  if training = false ∨ 1 ≤ keep then
    (x, s)
  else
    let keep_mask := bernoulli s.keygen keep x.shape
    (⟨x.shape, fun idx => if keep_mask idx then x.data idx / keep else 0⟩,
     { s with keygen := s.keygen + 1 })

end Dropout

/-- State of a `MovingAverage` module: the FIFO buffer tensor of shape
`(buffer_size,) + shape`. -/
structure MovingAverageState where
  buffer : Tensor

namespace MovingAverage

/-- Model of `MovingAverage.__init__(shape, buffer_size, init_value)`:
the buffer is `jn.zeros((buffer_size,) + shape) + init_value`. -/
def init (shape : List Nat) (buffer_size : Nat) (init_value : ℚ) :
    MovingAverageState :=
  ⟨Tensor.fill (buffer_size :: shape) init_value⟩

/-- Model of `MovingAverage.__call__(x)`: drop the oldest slot, append the
new sample, return the mean over the buffer axis together with the updated
state. -/
def call (s : MovingAverageState) (x : Tensor) :
    Tensor × MovingAverageState :=
  let buf := Tensor.concat0 (Tensor.sliceFrom1 s.buffer) (Tensor.unsqueeze0 x)
  (Tensor.mean0 buf, ⟨buf⟩)

end MovingAverage

/-- State of an `ExponentialMovingAverage` module. -/
structure EMAState where
  momentum : ℚ
  avg : Tensor

namespace ExponentialMovingAverage

/-- Model of `ExponentialMovingAverage.__init__(shape, momentum,
init_value)`: the accumulator is `jn.zeros(shape) + init_value`. -/
def init (shape : List Nat) (momentum : ℚ) (init_value : ℚ) : EMAState :=
  ⟨momentum, Tensor.fill shape init_value⟩

/-- Model of `ExponentialMovingAverage.__call__(x)`: update
`avg += (avg - x) * (momentum - 1)` and return the updated value. -/
def call (s : EMAState) (x : Tensor) : Tensor × EMAState :=
  let avg := Tensor.add s.avg
    (Tensor.mulScalar (Tensor.sub s.avg x) (s.momentum - 1))
  (avg, { s with avg := avg })

end ExponentialMovingAverage

/-- One declared parameter of a callable's signature: its name and whether
its kind is `VAR_KEYWORD` (a `**kwargs` catch-all). -/
structure SigParam where
  name : String
  is_var_keyword : Bool

/-- A step of a `Sequential` chain: the callable's signature parameters (as
reported by `inspect.signature(f).parameters`, in declaration order) and
its behavior, a function of the positional input and the forwarded keyword
arguments. -/
structure SeqStep (α κ : Type) where
  params : List SigParam
  fn : α → List (String × κ) → α

namespace Sequential

/-- Keyword arguments forwarded to one step, following
`Sequential.__call__`: if the signature is non-empty and its last parameter
is a `VAR_KEYWORD` catch-all, forward everything; if non-empty without a
catch-all, forward the arguments whose names occur among the declared
parameter names; if the signature is empty, forward nothing. -/
def localKwargs {κ : Type} (params : List SigParam)
    (kwargs : List (String × κ)) : List (String × κ) :=
  match params.getLast? with
  | none => []
  | some p =>
      if p.is_var_keyword then kwargs
      else kwargs.filter (fun kv => params.any (fun q => q.name = kv.1))

/-- Model of `Sequential.__call__(x, **kwargs)`: thread `x` through the
steps in order, passing each step the keyword arguments selected by
`localKwargs` for its signature. -/
def call {α κ : Type} (steps : List (SeqStep α κ)) (x : α)
    (kwargs : List (String × κ)) : α :=
  match steps with
  | [] => x
  | f :: rest => call rest (f.fn x (localKwargs f.params kwargs)) kwargs

end Sequential

/-- Scalar (rank-0) tensor holding one value. -/
def Tensor.scalar (c : ℚ) : Tensor := ⟨[], fun _ => c⟩

/-- Entry of an exponential-moving-average update `r + c * (m - r)` when the
two tensors have the same shape (as `running_mean` and the kept-dims batch
mean do in the intended use). -/
theorem ema_add_data (c : ℚ) (m r : Tensor) (idx : List Nat)
    (hm : m.shape = r.shape) (hv : Tensor.validIdxB r.shape idx = true) :
    (Tensor.add r (Tensor.smul c (Tensor.sub m r))).data idx
      = r.data idx + c * (m.data idx - r.data idx) := by
  have hsub : (Tensor.sub m r).shape = r.shape := by
    show Tensor.broadcastShape m.shape r.shape = r.shape
    rw [hm, Tensor.broadcastShape_self]
  simp only [Tensor.add, Tensor.smul, Tensor.zipWith_data, Tensor.bget_map]
  rw [Tensor.bget_valid r r.shape idx rfl hv,
    Tensor.bget_valid (Tensor.sub m r) r.shape idx hsub hv]
  simp only [Tensor.sub, Tensor.zipWith_data]
  rw [Tensor.bget_valid m r.shape idx hm hv,
    Tensor.bget_valid r r.shape idx rfl hv]

/-- Entry of the update `a + (a - x) * c` of `ExponentialMovingAverage` when
the input has the accumulator's shape. -/
theorem ema_mulScalar_data (c : ℚ) (a xx : Tensor) (idx : List Nat)
    (hx : xx.shape = a.shape) (hv : Tensor.validIdxB a.shape idx = true) :
    (Tensor.add a (Tensor.mulScalar (Tensor.sub a xx) c)).data idx
      = a.data idx + (a.data idx - xx.data idx) * c := by
  have hsub : (Tensor.sub a xx).shape = a.shape := by
    show Tensor.broadcastShape a.shape xx.shape = a.shape
    rw [hx, Tensor.broadcastShape_self]
  simp only [Tensor.add, Tensor.mulScalar, Tensor.zipWith_data, Tensor.bget_map]
  rw [Tensor.bget_valid a a.shape idx rfl hv,
    Tensor.bget_valid (Tensor.sub a xx) a.shape idx hsub hv]
  simp only [Tensor.sub, Tensor.zipWith_data]
  rw [Tensor.bget_valid xx a.shape idx hx hv,
    Tensor.bget_valid a a.shape idx rfl hv]

/-- Entry of the batch-norm output formula on a freshly constructed module
(`gamma = 1`, `beta = 0`, `running_mean = 0`, `running_var = 1`):
it reduces to `x * rsqrt (1 + eps)` elementwise, whenever the state shape
`dims` broadcasts against the input shape without enlarging it. -/
theorem fresh_eval_data (rsqrt : ℚ → ℚ) (dims : List Nat) (eps : ℚ)
    (x : Tensor) (idx : List Nat)
    (hbx : Tensor.broadcastShape x.shape dims = x.shape)
    (hdx : Tensor.broadcastShape dims x.shape = x.shape)
    (hv : Tensor.validIdxB x.shape idx = true) :
    (Tensor.add
      (Tensor.mul (Tensor.mul (Tensor.ones dims) (Tensor.sub x (Tensor.zeros dims)))
        (Tensor.map rsqrt (Tensor.addScalar (Tensor.ones dims) eps)))
      (Tensor.zeros dims)).data idx
      = x.data idx * rsqrt (1 + eps) := by
  have hsub : (Tensor.sub x (Tensor.zeros dims)).shape = x.shape := hbx
  have hA : (Tensor.mul (Tensor.ones dims) (Tensor.sub x (Tensor.zeros dims))).shape
      = x.shape := by
    show Tensor.broadcastShape (Tensor.ones dims).shape
      (Tensor.sub x (Tensor.zeros dims)).shape = x.shape
    rw [hsub]
    exact hdx
  have hAB : (Tensor.mul (Tensor.mul (Tensor.ones dims) (Tensor.sub x (Tensor.zeros dims)))
      (Tensor.map rsqrt (Tensor.addScalar (Tensor.ones dims) eps))).shape = x.shape := by
    show Tensor.broadcastShape
      (Tensor.mul (Tensor.ones dims) (Tensor.sub x (Tensor.zeros dims))).shape
      (Tensor.map rsqrt (Tensor.addScalar (Tensor.ones dims) eps)).shape = x.shape
    rw [hA]
    exact hbx
  calc (Tensor.add
        (Tensor.mul (Tensor.mul (Tensor.ones dims) (Tensor.sub x (Tensor.zeros dims)))
          (Tensor.map rsqrt (Tensor.addScalar (Tensor.ones dims) eps)))
        (Tensor.zeros dims)).data idx
      = (Tensor.mul (Tensor.mul (Tensor.ones dims) (Tensor.sub x (Tensor.zeros dims)))
          (Tensor.map rsqrt (Tensor.addScalar (Tensor.ones dims) eps))).bget idx + 0 := rfl
    _ = (Tensor.mul (Tensor.mul (Tensor.ones dims) (Tensor.sub x (Tensor.zeros dims)))
          (Tensor.map rsqrt (Tensor.addScalar (Tensor.ones dims) eps))).data idx + 0 := by
        rw [Tensor.bget_valid _ x.shape idx hAB hv]
    _ = (Tensor.mul (Tensor.ones dims) (Tensor.sub x (Tensor.zeros dims))).bget idx
          * rsqrt (1 + eps) + 0 := rfl
    _ = (Tensor.mul (Tensor.ones dims) (Tensor.sub x (Tensor.zeros dims))).data idx
          * rsqrt (1 + eps) + 0 := by
        rw [Tensor.bget_valid _ x.shape idx hA hv]
    _ = 1 * (Tensor.sub x (Tensor.zeros dims)).bget idx * rsqrt (1 + eps) + 0 := rfl
    _ = 1 * (Tensor.sub x (Tensor.zeros dims)).data idx * rsqrt (1 + eps) + 0 := by
        rw [Tensor.bget_valid _ x.shape idx hsub hv]
    _ = 1 * (x.bget idx - 0) * rsqrt (1 + eps) + 0 := rfl
    _ = 1 * (x.data idx - 0) * rsqrt (1 + eps) + 0 := by
        rw [Tensor.bget_of_valid x idx hv]
    _ = x.data idx * rsqrt (1 + eps) := by ring

/-- Claim C1: a training-mode `BatchNorm` call computes the kept-dims batch
mean `m` and biased variance `v = mean(x ^ 2) - m ^ 2` over the reduction
axes and updates both running statistics by
`running <- running + (1 - momentum) * (batch_stat - running)`; in
particular the updated `running_mean` entry equals
`old + (1 - momentum) * (m - old)`. -/
theorem C1_batchnorm_training_update (rsqrt : ℚ → ℚ) (s : BatchNormState)
    (x : Tensor) :
    (BatchNorm.call rsqrt s x true).2.running_mean
        = Tensor.add s.running_mean
            (Tensor.smul (1 - s.momentum)
              (Tensor.sub (Tensor.meanKeepdims x s.redux) s.running_mean))
    ∧ (BatchNorm.call rsqrt s x true).2.running_var
        = Tensor.add s.running_var
            (Tensor.smul (1 - s.momentum)
              (Tensor.sub
                (Tensor.sub (Tensor.meanKeepdims (Tensor.sq x) s.redux)
                  (Tensor.sq (Tensor.meanKeepdims x s.redux)))
                s.running_var))
    ∧ ∀ idx : List Nat,
        (Tensor.meanKeepdims x s.redux).shape = s.running_mean.shape →
        Tensor.validIdxB s.running_mean.shape idx = true →
        ((BatchNorm.call rsqrt s x true).2.running_mean).data idx
          = s.running_mean.data idx
            + (1 - s.momentum)
              * ((Tensor.meanKeepdims x s.redux).data idx
                  - s.running_mean.data idx) := by
  refine ⟨rfl, rfl, ?_⟩
  intro idx hm hv
  exact ema_add_data (1 - s.momentum) (Tensor.meanKeepdims x s.redux)
    s.running_mean idx hm hv

/-- Claim C1 witness at a concrete instance: a fresh `BatchNorm0D` over one
channel, a 2-element batch. -/
theorem C1_batchnorm_training_update_witness :
    (Tensor.meanKeepdims (Tensor.mk [2, 1] (fun idx => (idx.headI : ℚ) * 4))
          [0]).shape
        = (BatchNorm0D.init 1 (999 / 1000) (1 / 1000000)).running_mean.shape
    ∧ Tensor.validIdxB
        (BatchNorm0D.init 1 (999 / 1000) (1 / 1000000)).running_mean.shape
        [0, 0] = true
    ∧ ((BatchNorm.call (fun q => q)
        (BatchNorm0D.init 1 (999 / 1000) (1 / 1000000))
        (Tensor.mk [2, 1] (fun idx => (idx.headI : ℚ) * 4)) true).2.running_mean).data
        [0, 0]
      = (BatchNorm0D.init 1 (999 / 1000) (1 / 1000000)).running_mean.data [0, 0]
        + (1 - (999 / 1000))
          * ((Tensor.meanKeepdims (Tensor.mk [2, 1] (fun idx => (idx.headI : ℚ) * 4))
              [0]).data [0, 0]
            - (BatchNorm0D.init 1 (999 / 1000) (1 / 1000000)).running_mean.data
                [0, 0]) :=
  ⟨by decide, by decide,
    (C1_batchnorm_training_update (fun q => q)
      (BatchNorm0D.init 1 (999 / 1000) (1 / 1000000))
      (Tensor.mk [2, 1] (fun idx => (idx.headI : ℚ) * 4))).2.2
      [0, 0] (by decide) (by decide)⟩

/-- Claim C2: an evaluation-mode `BatchNorm` call returns
`gamma * (x - running_mean) * rsqrt(running_var + eps) + beta` computed from
the stored running statistics, leaves the whole module state unchanged, and
therefore two evaluation calls with the same input and no intervening
training call return identical outputs. -/
theorem C2_batchnorm_eval_frame (rsqrt : ℚ → ℚ) (s : BatchNormState)
    (x : Tensor) :
    (BatchNorm.call rsqrt s x false).1
        = Tensor.add
            (Tensor.mul (Tensor.mul s.gamma (Tensor.sub x s.running_mean))
              (Tensor.map rsqrt (Tensor.addScalar s.running_var s.eps)))
            s.beta
    ∧ (BatchNorm.call rsqrt s x false).2 = s
    ∧ (BatchNorm.call rsqrt (BatchNorm.call rsqrt s x false).2 x false).1
        = (BatchNorm.call rsqrt s x false).1 :=
  ⟨rfl, rfl, rfl⟩

/-- Claim C7: each `ExponentialMovingAverage` call performs
`avg <- avg + (avg - x) * (momentum - 1)`, which equals
`momentum * avg + (1 - momentum) * x`, and returns the updated stored value;
with momentum 9/10 and initial value 0, a call with input 10 returns 1 and a
second call with input 10 returns 19/10. -/
theorem C7_ema_update (s : EMAState) (x : Tensor) :
    (∀ a xv mu : ℚ, a + (a - xv) * (mu - 1) = mu * a + (1 - mu) * xv)
    ∧ (ExponentialMovingAverage.call s x).1
        = (ExponentialMovingAverage.call s x).2.avg
    ∧ (ExponentialMovingAverage.call s x).2.avg
        = Tensor.add s.avg
            (Tensor.mulScalar (Tensor.sub s.avg x) (s.momentum - 1))
    ∧ (∀ idx : List Nat, x.shape = s.avg.shape →
        Tensor.validIdxB s.avg.shape idx = true →
        (ExponentialMovingAverage.call s x).1.data idx
          = s.momentum * s.avg.data idx + (1 - s.momentum) * x.data idx)
    ∧ (ExponentialMovingAverage.call
        (ExponentialMovingAverage.init [] (9 / 10) 0)
        (Tensor.scalar 10)).1.data [] = 1
    ∧ (ExponentialMovingAverage.call
        (ExponentialMovingAverage.call
          (ExponentialMovingAverage.init [] (9 / 10) 0)
          (Tensor.scalar 10)).2
        (Tensor.scalar 10)).1.data [] = 19 / 10 := by
  refine ⟨fun a xv mu => by ring, rfl, rfl, ?_,
    by norm_num [ExponentialMovingAverage.call, ExponentialMovingAverage.init,
      Tensor.add, Tensor.mulScalar, Tensor.sub, Tensor.zipWith, Tensor.map,
      Tensor.bget, Tensor.clampIdx, Tensor.fill, Tensor.scalar],
    by norm_num [ExponentialMovingAverage.call, ExponentialMovingAverage.init,
      Tensor.add, Tensor.mulScalar, Tensor.sub, Tensor.zipWith, Tensor.map,
      Tensor.bget, Tensor.clampIdx, Tensor.fill, Tensor.scalar]⟩
  intro idx hx hv
  have h := ema_mulScalar_data (s.momentum - 1) s.avg x idx hx hv
  calc (ExponentialMovingAverage.call s x).1.data idx
      = s.avg.data idx + (s.avg.data idx - x.data idx) * (s.momentum - 1) := h
    _ = s.momentum * s.avg.data idx + (1 - s.momentum) * x.data idx := by ring

/-- Claim C7 witness: the elementwise update rule instantiated on the
scalar example state. -/
theorem C7_ema_update_witness :
    (Tensor.scalar 10).shape
        = (ExponentialMovingAverage.init [] (9 / 10) 0).avg.shape
    ∧ Tensor.validIdxB
        (ExponentialMovingAverage.init [] (9 / 10) 0).avg.shape [] = true
    ∧ (ExponentialMovingAverage.call
        (ExponentialMovingAverage.init [] (9 / 10) 0)
        (Tensor.scalar 10)).1.data []
      = (ExponentialMovingAverage.init [] (9 / 10) 0).momentum
          * (ExponentialMovingAverage.init [] (9 / 10) 0).avg.data []
        + (1 - (ExponentialMovingAverage.init [] (9 / 10) 0).momentum)
          * (Tensor.scalar 10).data [] :=
  ⟨rfl, rfl,
    (C7_ema_update (ExponentialMovingAverage.init [] (9 / 10) 0)
      (Tensor.scalar 10)).2.2.2.1 [] rfl rfl⟩

/-- Claim C8: a training-mode `SyncedBatchNorm` call with
`batch_norm_update = false` leaves the module state (hence both running
statistics) unchanged while its output is still computed from the
device-aggregated batch statistics `m` and `v`; with
`batch_norm_update = true` both running statistics receive the same
exponential-moving-average update as `BatchNorm`. -/
theorem C8_syncedbatchnorm_update_flag (rsqrt : ℚ → ℚ)
    (pmean : Tensor → Tensor) (s : BatchNormState) (x : Tensor) :
    (SyncedBatchNorm.call rsqrt pmean s x true false).2 = s
    ∧ (SyncedBatchNorm.call rsqrt pmean s x true false).1
        = Tensor.add
            (Tensor.mul
              (Tensor.mul s.gamma
                (Tensor.sub x (pmean (Tensor.meanKeepdims x s.redux))))
              (Tensor.map rsqrt
                (Tensor.addScalar
                  (pmean (Tensor.sub (Tensor.meanKeepdims (Tensor.sq x) s.redux)
                    (Tensor.sq (pmean (Tensor.meanKeepdims x s.redux)))))
                  s.eps)))
            s.beta
    ∧ (SyncedBatchNorm.call rsqrt pmean s x true true).2.running_mean
        = Tensor.add s.running_mean
            (Tensor.smul (1 - s.momentum)
              (Tensor.sub (pmean (Tensor.meanKeepdims x s.redux))
                s.running_mean))
    ∧ (SyncedBatchNorm.call rsqrt pmean s x true true).2.running_var
        = Tensor.add s.running_var
            (Tensor.smul (1 - s.momentum)
              (Tensor.sub
                (pmean (Tensor.sub (Tensor.meanKeepdims (Tensor.sq x) s.redux)
                  (Tensor.sq (pmean (Tensor.meanKeepdims x s.redux)))))
                s.running_var)) :=
  ⟨rfl, rfl, rfl, rfl⟩

/-- Claim C3: each `Sequential` step receives the previous step's output
plus, when its signature ends in a `VAR_KEYWORD` catch-all, all of the
keyword arguments; otherwise, when it declares at least one parameter,
exactly the keyword arguments whose names appear among its declared
parameter names; and, with an empty signature, none.  In particular for
`Sequential([f, g])(x, training=v)` with `f` taking only the positional
tensor and `g` taking `(tensor, training)`, `f` is invoked as `f(x)` and
`g` as `g(f(x), training=v)`. -/
theorem C3_sequential_dispatch {α κ : Type} :
    (∀ (f : SeqStep α κ) (rest : List (SeqStep α κ)) (x : α)
        (kwargs : List (String × κ)),
        Sequential.call (f :: rest) x kwargs
          = Sequential.call rest (f.fn x (Sequential.localKwargs f.params kwargs))
              kwargs)
    ∧ (∀ (params : List SigParam) (kwargs : List (String × κ)) (p : SigParam),
        params.getLast? = some p →
        Sequential.localKwargs params kwargs
          = if p.is_var_keyword then kwargs
            else kwargs.filter (fun kv => params.any (fun q => q.name = kv.1)))
    ∧ (∀ kwargs : List (String × κ),
        Sequential.localKwargs ([] : List SigParam) kwargs = [])
    ∧ (∀ (ffn gfn : α → List (String × κ) → α) (x : α) (v : κ),
        Sequential.call
          [⟨[⟨"x", false⟩], ffn⟩,
           ⟨[⟨"x", false⟩, ⟨"training", false⟩], gfn⟩]
          x [("training", v)]
          = gfn (ffn x []) [("training", v)]) := by
  refine ⟨fun f rest x kwargs => rfl, ?_, fun kwargs => rfl, ?_⟩
  · intro params kwargs p hp
    unfold Sequential.localKwargs
    rw [hp]
  · intro ffn gfn x v
    show gfn (ffn x (Sequential.localKwargs [⟨"x", false⟩] [("training", v)]))
        (Sequential.localKwargs [⟨"x", false⟩, ⟨"training", false⟩]
          [("training", v)]) = gfn (ffn x []) [("training", v)]
    norm_num [Sequential.localKwargs, List.filter, List.getLast?, List.any]
    rfl

/-- Claim C3 witness: the signature-dependent dispatch rule applied to a
concrete signature ending in a catch-all. -/
theorem C3_sequential_dispatch_witness :
    ([⟨"a", false⟩, ⟨"kw", true⟩] : List SigParam).getLast?
        = some ⟨"kw", true⟩
    ∧ Sequential.localKwargs [⟨"a", false⟩, ⟨"kw", true⟩]
        ([("b", true)] : List (String × Bool))
      = if (⟨"kw", true⟩ : SigParam).is_var_keyword
        then [("b", true)]
        else ([("b", true)] : List (String × Bool)).filter
          (fun kv => ([⟨"a", false⟩, ⟨"kw", true⟩] : List SigParam).any
            (fun q => q.name = kv.1)) :=
  ⟨rfl, (@C3_sequential_dispatch Bool Bool).2.1
    [⟨"a", false⟩, ⟨"kw", true⟩] [("b", true)] ⟨"kw", true⟩ rfl⟩

/-- Claim C4: `Conv2D` construction succeeds exactly when both channel
counts are divisible by the group count; with `nin = 4, groups = 3` it
fails and with `nin = 6, groups = 3` (and `nout` divisible by 3) it
succeeds. -/
theorem C4_conv2d_groups_precondition (nin nout : Nat)
    (k st di : IntOrPair) (groups : Nat) (p : ConvPadding) (ub : Bool)
    (w_init : List Nat → Tensor) :
    ((Conv2D.init nin nout k st di groups p ub w_init).isSome
        ↔ (nin % groups = 0 ∧ nout % groups = 0))
    ∧ Conv2D.init 4 3 k st di 3 p ub w_init = none
    ∧ (Conv2D.init 6 3 k st di 3 p ub w_init).isSome = true := by
  refine ⟨?_, ?_, ?_⟩
  · unfold Conv2D.init
    by_cases h1 : nin % groups = 0
    · by_cases h2 : nout % groups = 0
      · simp [h1, h2]
      · simp [h1, h2]
    · simp [h1]
  · unfold Conv2D.init
    norm_num
  · unfold Conv2D.init
    norm_num

/-- Claim C5: a `Dropout` call with `training = false`, or one whose
effective keep probability (the override if truthy, else the stored keep)
is at least 1, returns the input unchanged and leaves the module state —
in particular the random generator — untouched, for any override value. -/
theorem C5_dropout_identity (bernoulli : Nat → ℚ → List Nat → (List Nat → Bool))
    (s : DropoutState) (x : Tensor) (training : Bool)
    (dropout_keep : Option ℚ)
    (h : training = false ∨ 1 ≤ pyOrKeep dropout_keep s.keep) :
    Dropout.call bernoulli s x training dropout_keep = (x, s) := by
  unfold Dropout.call
  exact if_pos h

/-- Claim C5 witness: evaluation-mode call with an override, and a
training-mode call with keep probability 1. -/
theorem C5_dropout_identity_witness :
    ((false : Bool) = false
        ∨ 1 ≤ pyOrKeep (some (1 / 2)) (⟨0, 3 / 4⟩ : DropoutState).keep)
    ∧ Dropout.call (fun _ _ _ => fun _ => true) ⟨0, 3 / 4⟩ (Tensor.scalar 5)
        false (some (1 / 2)) = (Tensor.scalar 5, ⟨0, 3 / 4⟩)
    ∧ ((true : Bool) = false
        ∨ 1 ≤ pyOrKeep none (⟨0, 1⟩ : DropoutState).keep)
    ∧ Dropout.call (fun _ _ _ => fun _ => true) ⟨0, 1⟩ (Tensor.scalar 5)
        true none = (Tensor.scalar 5, ⟨0, 1⟩) :=
  ⟨Or.inl rfl,
   C5_dropout_identity (fun _ _ _ => fun _ => true) ⟨0, 3 / 4⟩
     (Tensor.scalar 5) false (some (1 / 2)) (Or.inl rfl),
   Or.inr (by norm_num [pyOrKeep]),
   C5_dropout_identity (fun _ _ _ => fun _ => true) ⟨0, 1⟩
     (Tensor.scalar 5) true none (Or.inr (by norm_num [pyOrKeep]))⟩

/-- Claim C9: because the effective keep probability is computed with
Python `or`, a falsy override (`dropout_keep = 0`) is ignored and the
constructor's keep probability is used instead: the call behaves exactly
as a call without an override, and when the stored keep is below 1 in
training mode the drawn mask uses the stored keep, not 0. -/
theorem C9_dropout_zero_override_ignored
    (bernoulli : Nat → ℚ → List Nat → (List Nat → Bool))
    (s : DropoutState) (x : Tensor) (training : Bool) (q : ℚ) :
    pyOrKeep (some 0) q = q
    ∧ Dropout.call bernoulli s x training (some 0)
        = Dropout.call bernoulli s x training none
    ∧ (s.keep < 1 →
        Dropout.call bernoulli s x true (some 0)
          = (⟨x.shape, fun idx =>
              if bernoulli s.keygen s.keep x.shape idx
              then x.data idx / s.keep else 0⟩,
             ⟨s.keygen + 1, s.keep⟩)) := by
  refine ⟨by norm_num [pyOrKeep], ?_, ?_⟩
  · unfold Dropout.call
    norm_num [pyOrKeep]
  · intro hk
    unfold Dropout.call
    rw [if_neg]
    · norm_num [pyOrKeep]
    · norm_num [pyOrKeep]
      exact hk

/-- Claim C9 witness: keep 1/2, training mode, override 0. -/
theorem C9_dropout_zero_override_ignored_witness :
    (⟨7, 1 / 2⟩ : DropoutState).keep < 1
    ∧ Dropout.call (fun _ _ _ => fun _ => true) ⟨7, 1 / 2⟩ (Tensor.scalar 5)
        true (some 0)
      = (⟨(Tensor.scalar 5).shape, fun idx =>
          if (fun _ _ _ => fun _ => true) (7 : Nat) ((1 : ℚ) / 2)
              (Tensor.scalar 5).shape idx
          then (Tensor.scalar 5).data idx / (1 / 2) else 0⟩,
         ⟨7 + 1, 1 / 2⟩) :=
  ⟨by norm_num,
   (C9_dropout_zero_override_ignored (fun _ _ _ => fun _ => true)
     ⟨7, 1 / 2⟩ (Tensor.scalar 5) true 0).2.2 (by norm_num)⟩

theorem MovingAverage.call_buffer (s : MovingAverageState) (x : Tensor) :
    (MovingAverage.call s x).2.buffer
      = Tensor.concat0 (Tensor.sliceFrom1 s.buffer) (Tensor.unsqueeze0 x) := rfl

/-- Claim C6: the `MovingAverage` buffer always holds exactly `buffer_size`
samples (seeded with the initial value at construction); each call drops
the oldest slot, appends the new sample at the end (strict FIFO) and
returns the mean over the buffer axis; with buffer size 3, initial value 0
and scalar shape, inputs 3, 6, 9 produce outputs 1, 3, 6. -/
theorem C6_movingaverage_fifo (s : MovingAverageState) (x : Tensor)
    (b : Nat) (sh : List Nat) (hsh : s.buffer.shape = b :: sh) (hb : 1 ≤ b) :
    (∀ (sh0 : List Nat) (b0 : Nat) (c : ℚ) (idx0 : List Nat),
        (MovingAverage.init sh0 b0 c).buffer.shape = b0 :: sh0
        ∧ (MovingAverage.init sh0 b0 c).buffer.data idx0 = c)
    ∧ (MovingAverage.call s x).2.buffer.shape = b :: sh
    ∧ (∀ (i : Nat) (is : List Nat),
        (MovingAverage.call s x).2.buffer.data (i :: is)
          = if i < b - 1 then s.buffer.data ((i + 1) :: is) else x.data is)
    ∧ (MovingAverage.call s x).1
        = Tensor.mean0 (MovingAverage.call s x).2.buffer
    ∧ (∀ idx : List Nat,
        (MovingAverage.call s x).1.data idx
          = (((List.range b).map
              (fun i => (MovingAverage.call s x).2.buffer.data (i :: idx))).sum)
            / (b : ℚ))
    ∧ (MovingAverage.call (MovingAverage.init [] 3 0)
        (Tensor.scalar 3)).1.data [] = 1
    ∧ (MovingAverage.call
        (MovingAverage.call (MovingAverage.init [] 3 0) (Tensor.scalar 3)).2
        (Tensor.scalar 6)).1.data [] = 3
    ∧ (MovingAverage.call
        (MovingAverage.call
          (MovingAverage.call (MovingAverage.init [] 3 0) (Tensor.scalar 3)).2
          (Tensor.scalar 6)).2
        (Tensor.scalar 9)).1.data [] = 6 := by
  have hhead : (MovingAverage.call s x).2.buffer.shape = b :: sh := by
    rw [MovingAverage.call_buffer]
    show ((Tensor.sliceFrom1 s.buffer).shape.headI
        + (Tensor.unsqueeze0 x).shape.headI) :: (Tensor.sliceFrom1 s.buffer).shape.tail
      = b :: sh
    simp only [Tensor.sliceFrom1, Tensor.unsqueeze0, hsh, List.headI, List.tail]
    have hb1 : b - 1 + 1 = b := by omega
    rw [hb1]
  refine ⟨?_, hhead, ?_, rfl, ?_, ?_, ?_, ?_⟩
  · intro sh0 b0 c idx0
    exact ⟨rfl, by norm_num [MovingAverage.init, Tensor.fill]⟩
  · intro i is
    rw [MovingAverage.call_buffer]
    show (if (i :: is).headI < (Tensor.sliceFrom1 s.buffer).shape.headI
        then (Tensor.sliceFrom1 s.buffer).data (i :: is)
        else (Tensor.unsqueeze0 x).data
          (((i :: is).headI - (Tensor.sliceFrom1 s.buffer).shape.headI)
            :: (i :: is).tail))
      = if i < b - 1 then s.buffer.data ((i + 1) :: is) else x.data is
    simp only [Tensor.sliceFrom1, Tensor.unsqueeze0, hsh, List.headI, List.tail]
  · intro idx
    show (((List.range (MovingAverage.call s x).2.buffer.shape.headI).map
        (fun i => (MovingAverage.call s x).2.buffer.data (i :: idx))).sum)
        / ((MovingAverage.call s x).2.buffer.shape.headI : ℚ)
      = (((List.range b).map
        (fun i => (MovingAverage.call s x).2.buffer.data (i :: idx))).sum)
        / (b : ℚ)
    rw [hhead]
    simp only [List.headI]
  · norm_num [MovingAverage.call, MovingAverage.init, Tensor.mean0,
      Tensor.concat0, Tensor.sliceFrom1, Tensor.unsqueeze0, Tensor.fill,
      Tensor.scalar, List.range_succ]
  · norm_num [MovingAverage.call, MovingAverage.init, Tensor.mean0,
      Tensor.concat0, Tensor.sliceFrom1, Tensor.unsqueeze0, Tensor.fill,
      Tensor.scalar, List.range_succ]
  · norm_num [MovingAverage.call, MovingAverage.init, Tensor.mean0,
      Tensor.concat0, Tensor.sliceFrom1, Tensor.unsqueeze0, Tensor.fill,
      Tensor.scalar, List.range_succ]

/-- Claim C6 witness: the general FIFO statements instantiated on a
buffer of size 2 over scalars. -/
theorem C6_movingaverage_fifo_witness :
    (MovingAverage.init [] 2 (5 : ℚ)).buffer.shape = 2 :: []
    ∧ 1 ≤ 2
    ∧ (MovingAverage.call (MovingAverage.init [] 2 (5 : ℚ))
        (Tensor.scalar 7)).2.buffer.shape = 2 :: [] :=
  ⟨rfl, by omega,
    (C6_movingaverage_fifo (MovingAverage.init [] 2 (5 : ℚ))
      (Tensor.scalar 7) 2 [] rfl (by omega)).2.1⟩

/-- Claim C10: a freshly constructed `BatchNorm` (and the 0D/1D/2D and
synced variants, which initialize the same state) has `running_mean` and
`beta` all zeros and `running_var` and `gamma` all ones; consequently the
first evaluation-mode call, before any training call, returns
`x * rsqrt(1 + eps)` elementwise, for both `BatchNorm` and
`SyncedBatchNorm`. -/
theorem C10_batchnorm_fresh_state (dims redux : List Nat)
    (momentum eps : ℚ) (nin : Nat) (rsqrt : ℚ → ℚ)
    (pmean : Tensor → Tensor) (x : Tensor) :
    (BatchNorm.init dims redux momentum eps).running_mean = Tensor.zeros dims
    ∧ (BatchNorm.init dims redux momentum eps).running_var = Tensor.ones dims
    ∧ (BatchNorm.init dims redux momentum eps).beta = Tensor.zeros dims
    ∧ (BatchNorm.init dims redux momentum eps).gamma = Tensor.ones dims
    ∧ BatchNorm0D.init nin momentum eps
        = BatchNorm.init [1, nin] [0] momentum eps
    ∧ BatchNorm1D.init nin momentum eps
        = BatchNorm.init [1, nin, 1] [0, 2] momentum eps
    ∧ BatchNorm2D.init nin momentum eps
        = BatchNorm.init [1, nin, 1, 1] [0, 2, 3] momentum eps
    ∧ SyncedBatchNorm.init0D nin momentum eps
        = BatchNorm.init [1, nin] [0] momentum eps
    ∧ SyncedBatchNorm.init1D nin momentum eps
        = BatchNorm.init [1, nin, 1] [0, 2] momentum eps
    ∧ SyncedBatchNorm.init2D nin momentum eps
        = BatchNorm.init [1, nin, 1, 1] [0, 2, 3] momentum eps
    ∧ (∀ idx : List Nat,
        Tensor.broadcastShape x.shape dims = x.shape →
        Tensor.broadcastShape dims x.shape = x.shape →
        Tensor.validIdxB x.shape idx = true →
        (BatchNorm.call rsqrt (BatchNorm.init dims redux momentum eps)
            x false).1.data idx
          = x.data idx * rsqrt (1 + eps)
        ∧ (SyncedBatchNorm.call rsqrt pmean
            (BatchNorm.init dims redux momentum eps) x false true).1.data idx
          = x.data idx * rsqrt (1 + eps)) := by
  refine ⟨rfl, rfl, rfl, rfl, rfl, rfl, rfl, rfl, rfl, rfl, ?_⟩
  intro idx hbx hdx hv
  exact ⟨fresh_eval_data rsqrt dims eps x idx hbx hdx hv,
    fresh_eval_data rsqrt dims eps x idx hbx hdx hv⟩

/-- Claim C10 witness: a fresh one-channel `BatchNorm0D` state evaluated
on a batch of two rows. -/
theorem C10_batchnorm_fresh_state_witness :
    Tensor.broadcastShape [2, 1] [1, 1] = [2, 1]
    ∧ Tensor.broadcastShape [1, 1] [2, 1] = [2, 1]
    ∧ Tensor.validIdxB [2, 1] [1, 0] = true
    ∧ (BatchNorm.call (fun q => q)
        (BatchNorm.init [1, 1] [0] (999 / 1000) (1 / 1000000))
        (Tensor.mk [2, 1] (fun idx => (idx.headI : ℚ) + 3)) false).1.data [1, 0]
      = (Tensor.mk [2, 1] (fun idx => (idx.headI : ℚ) + 3)).data [1, 0]
        * (fun q => q) ((1 : ℚ) + 1 / 1000000) :=
  ⟨by decide, by decide, by decide,
    ((C10_batchnorm_fresh_state [1, 1] [0] (999 / 1000) (1 / 1000000) 1
      (fun q => q) (fun t => t)
      (Tensor.mk [2, 1] (fun idx => (idx.headI : ℚ) + 3))).2.2.2.2.2.2.2.2.2.2
      [1, 0] (by decide) (by decide) (by decide)).1⟩

end Objax
